import Mathlib

/-!
Verification of the mapcidr pipeline (src/cmd/mapcidr/main.go).

The program is a three-stage pipeline: an input aggregator (in `main`)
sends CIDR descriptor strings over an unbuffered channel to `process`,
which dispatches one of three transformations per descriptor and sends
every result string over a second unbuffered channel to `output`, which
prints each non-empty record and optionally tees it to a file.

Shallow embedding conventions used below:
- Go `int` is `Int`; Go strings are `String`.
- `gologger.Fatalf` prints and exits the whole process with a non-zero
  status; it is embedded as the `.error` branch of an `Except`, or as a
  `some` error component: once it appears, nothing later in the program
  order happens.
- The three CIDR-arithmetic functions live in the external package
  `github.com/projectdiscovery/mapcidr`; the spec treats them as opaque
  collaborators, so they are parameters (an `Algorithms` record); the
  `.String()` conversion of each returned subnet is folded into the
  returned `List String`.
- `net.ParseCIDR` is from the Go standard library (also external).
  It is modelled concretely for IPv4 text forms so that claims can be
  evaluated on concrete inputs.
-/

deriving instance DecidableEq for Except

/-- The CLI option record from main.go (`Options`). Only the fields the
pipeline reads are kept; `Version` is consumed before the pipeline starts. -/
structure Options where
  Slices : Int
  HostCount : Int
  Cidr : String
  FileCidr : String
  Silent : Bool
  Output : String
deriving DecidableEq, Repr

/-- Splits a character list at every occurrence of a separator, keeping
empty groups, like the Go string splitting the modelled parser performs. -/
def splitOnChar (sep : Char) : List Char → List (List Char)
  | [] => [[]]
  | c :: rest =>
    let r := splitOnChar sep rest
    if c = sep then [] :: r
    else match r with
      | [] => [[c]]
      | g :: gs => (c :: g) :: gs

/-- The decimal value of a digit character, `none` for a non-digit. -/
def charDigit? (c : Char) : Option Nat :=
  if 48 ≤ c.toNat ∧ c.toNat ≤ 57 then some (c.toNat - 48) else none

/-- Reads a non-empty all-decimal-digit character list as a natural
number, like the Go standard library helper `dtoi` when it must consume
the whole token. -/
def decToNat? (cs : List Char) : Option Nat :=
  match cs with
  | [] => none
  | _ =>
    cs.foldl
      (fun acc c =>
        match acc, charDigit? c with
        | some a, some d => some (a * 10 + d)
        | _, _ => none)
      (some 0)

/-- Modelled from the spec: one decimal octet of an IPv4 dotted quad, as
accepted by the Go standard library parser used at the parse step
("Parse as a network (address + prefix)"). -/
def parseOctet (cs : List Char) : Option Nat :=
  match decToNat? cs with
  | some n => if n ≤ 255 then some n else none
  | none => none

/-- Modelled from the spec: an IPv4 dotted-quad address as a 32-bit value. -/
def parseIPv4 (cs : List Char) : Option Nat :=
  match splitOnChar '.' cs with
  | [a, b, c, d] =>
    match parseOctet a, parseOctet b, parseOctet c, parseOctet d with
    | some x, some y, some z, some w => some (((x * 256 + y) * 256 + z) * 256 + w)
    | _, _, _, _ => none
  | _ => none

/-- Modelled from the spec: `net.ParseCIDR` from the Go standard library,
the external parse step of the Transform Stage ("Parse as a network
(address + prefix). Parse failure is fatal"). IPv4 text forms only, which
covers every concrete descriptor the claims mention. Returns the base
address value and the mask length on success. -/
def parseCIDR (s : String) : Except String (Nat × Nat) :=
  match splitOnChar '/' s.toList with
  | [addr, mask] =>
    match parseIPv4 addr, decToNat? mask with
    | some ip, some m =>
      if m ≤ 32 then .ok (ip, m) else .error ("invalid CIDR address: " ++ s)
    | _, _ => .error ("invalid CIDR address: " ++ s)
  | _ => .error ("invalid CIDR address: " ++ s)

/-- The external algorithm provider (`github.com/projectdiscovery/mapcidr`),
kept opaque as the spec directs. Each function already yields the text
forms of its results (`subnet.String()` folded in). -/
structure Algorithms where
  SplitN : String → Int → Except String (List String)
  SplitByNumber : String → Int → Except String (List String)
  IPAddresses : String → Except String (List String)

/-- The body of the `for cidr := range chancidr` loop of `process`
(main.go lines 145-175) for one descriptor: validate with `net.ParseCIDR`,
then dispatch exactly one transformation by the `if / else if / else`
priority on `options.Slices` and `options.HostCount`. `.error` embeds a
`gologger.Fatalf` call (fatal, non-zero exit); `.ok outs` is the ordered
list of strings the loop sends on `outputchan`. -/
def processStep (alg : Algorithms) (opts : Options) (cidr : String) :
    Except String (List String) :=
  match parseCIDR cidr with
  | .error e => .error e
  | .ok _ =>
    if opts.Slices > 0 then alg.SplitN cidr opts.Slices
    else if opts.HostCount > 0 then alg.SplitByNumber cidr opts.HostCount
    else alg.IPAddresses cidr

/-- The result strings one descriptor contributes (empty on a fatal error,
which only feeds lemma statements about the successful prefix). -/
def okOuts (alg : Algorithms) (opts : Options) (cidr : String) : List String :=
  match processStep alg opts cidr with
  | .ok outs => outs
  | .error _ => []

/-- The whole `process` loop over the descriptor sequence: the pair of
(all strings sent on `outputchan` in program order, the fatal error if one
occurred). A fatal error stops the loop at once: descriptors after it are
never examined. -/
def processList (alg : Algorithms) (opts : Options) :
    List String → List String × Option String
  | [] => ([], none)
  | c :: rest =>
    match processStep alg opts c with
    | .error e => ([], some e)
    | .ok outs =>
      let r := processList alg opts rest
      (outs ++ r.1, r.2)

/-- A trivial concrete instantiation of the external algorithm provider,
used only to evaluate the pipeline at concrete inputs. -/
def algEnum : Algorithms where
  SplitN := fun c _ => .ok [c ++ "#splitN"]
  SplitByNumber := fun c _ => .ok [c ++ "#splitByNumber"]
  IPAddresses := fun c => .ok [c]

/-- The default option record: no split mode, no sources, no output file. -/
def opts0 : Options :=
  { Slices := 0, HostCount := 0, Cidr := "", FileCidr := "",
    Silent := false, Output := "" }

/-- A file operation the Output Sink performs on the `-o` file: the single
`os.Create` call, or one `f.WriteString` call whose success flag records
whether that write succeeded (its error result is discarded by the code). -/
inductive FOp where
  | create : FOp
  | write : String → Bool → FOp
deriving DecidableEq, Repr

/-- The `for o := range outputchan` loop of `output` (main.go lines
192-200): empty records are skipped; every other record is printed with
`gologger.Silentf` and, when a file is configured, written to it with
`f.WriteString`, whose error result is discarded. `wOk i` tells whether
the i-th write call succeeds; the returned pair is (printed lines, file
operations in program order). -/
def sinkLoop (hasFile : Bool) (wOk : Nat → Bool) :
    List String → Nat → List String × List FOp
  | [], _ => ([], [])
  | o :: rest, i =>
    if o = "" then sinkLoop hasFile wOk rest i
    else if hasFile then
      let r := sinkLoop hasFile wOk rest (i + 1)
      (o :: r.1, FOp.write o (wOk i) :: r.2)
    else
      let r := sinkLoop hasFile wOk rest i
      (o :: r.1, r.2)

/-- The whole `output` goroutine (main.go lines 181-201): when an output
path is configured it calls `os.Create` once before the loop (failure is
a fatal `gologger.Fatalf`, embedded as `.error`), then runs the loop.
`cOk` tells whether `os.Create` succeeds. -/
def outputStage (opts : Options) (cOk : Bool) (wOk : Nat → Bool)
    (records : List String) : Except String (List String × List FOp) :=
  if opts.Output ≠ "" then
    if cOk then
      let r := sinkLoop true wOk records 0
      .ok (r.1, FOp.create :: r.2)
    else .error "Could not create output file"
  else .ok (sinkLoop false wOk records 0)

/-- The contents of the `-o` file after a list of file operations,
starting from the given prior contents: `os.Create` truncates to empty
(O_CREATE with O_TRUNC), and each successful `WriteString` appends one
line. -/
def applyFOps (contents : List String) : List FOp → List String
  | [] => contents
  | FOp.create :: rest => applyFOps [] rest
  | FOp.write s ok :: rest => applyFOps (if ok then contents ++ [s] else contents) rest

/-- Whether a file operation is a write attempt. -/
def FOp.isWrite : FOp → Bool
  | FOp.create => false
  | FOp.write _ _ => true

/-- Go `make(chan T, c)` buffer capacity; `make(chan string)` passes no
capacity argument, which Go defines as capacity 0 (unbuffered). -/
def mkChan (capArg : Option Nat) : Nat :=
  capArg.getD 0

/-- Buffer capacity of `chancidr := make(chan string)` (main.go line 106). -/
def chancidrCap : Nat := mkChan none

/-- Buffer capacity of `outputchan := make(chan string)` (main.go line 107). -/
def outputchanCap : Nat := mkChan none

/-- Go channel semantics: a send on a channel with buffer capacity `c`
blocks (suspends until a receiver is ready or a slot frees) exactly when
the buffer already holds `c` pending items; in particular a send on an
unbuffered channel always blocks until a receiver rendezvous. -/
def sendBlocks (c pending : Nat) : Bool :=
  c ≤ pending

/-- Claim C7 as stated: a producer can queue arbitrarily many pending
items ahead of the consumer without its send blocking on the capacity of
either pipeline channel. -/
def sendsNeverBlockOnCapacity : Prop :=
  ∀ pending : Nat,
    sendBlocks chancidrCap pending = false ∧
    sendBlocks outputchanCap pending = false

/-- The `os.FileMode` named-pipe bit, `os.ModeNamedPipe = 1 << 25`. -/
def ModeNamedPipe : Nat := 2 ^ 25

/-- The `os.FileMode` character-device bits a terminal carries,
`os.ModeDevice = 1 << 26` and `os.ModeCharDevice = 1 << 21`. -/
def ModeCharDeviceBits : Nat := 2 ^ 26 + 2 ^ 21

/-- The `hasStdin` function (main.go lines 203-212): `os.Stdin.Stat()`
either fails (modelled `.error`) or yields the mode bits (modelled `.ok`);
a failed Stat returns false, a mode without the named-pipe bit returns
false, otherwise true. -/
def hasStdin (stat : Except Unit Nat) : Bool :=
  match stat with
  | .error _ => false
  | .ok mode => if mode &&& ModeNamedPipe == 0 then false else true

/-- An observable event of the pipeline: a send or the single close on
each of the two channels, the Output Sink returning, the `wg.Wait()` join
returning in `main`, and a fatal `gologger.Fatalf` process exit. -/
inductive Ev where
  | send1 : String → Ev
  | close1 : Ev
  | send2 : String → Ev
  | close2 : Ev
  | sinkDone : Ev
  | wgDone : Ev
  | fatal : Ev
deriving DecidableEq, Repr

/-- The channel-1 events `main` performs as the Input Aggregator (main.go
lines 115-139): the single `-cidr` string when non-empty, then every
stdin line when `hasStdin()` holds, then — when `-l` is set — either a
fatal exit if the file cannot be opened (`fileContents = none`) or every
file line; finally the single `close(chancidr)`. -/
def mainChan1Trace (opts : Options) (stat : Except Unit Nat)
    (stdinLines : List String) (fileContents : Option (List String)) : List Ev :=
  (if opts.Cidr ≠ "" then [Ev.send1 opts.Cidr] else []) ++
  (if hasStdin stat then stdinLines.map Ev.send1 else []) ++
  (if opts.FileCidr ≠ "" then
    match fileContents with
    | none => [Ev.fatal]
    | some ls => ls.map Ev.send1 ++ [Ev.close1]
  else [Ev.close1])

/-- The descriptor strings actually sent on channel 1, in order. -/
def sentDescriptors (t : List Ev) : List String :=
  t.filterMap fun e =>
    match e with
    | Ev.send1 s => some s
    | _ => none

/-- The channel events of `process` working on one descriptor, assuming
no fatal error on it: the rendezvous receive of the descriptor (paired
with the send on channel 1) followed by one channel-2 send per result
string, in returned order. -/
def descTrace (alg : Algorithms) (opts : Options) (c : String) : List Ev :=
  Ev.send1 c :: (okOuts alg opts c).map Ev.send2

/-- The deterministic observable event order of the whole pipeline run on
a descriptor sequence. Both channels are unbuffered with a single
producer and single consumer each, so every send is a rendezvous and the
event order is fixed by program order: per descriptor the channel-1 send,
then its channel-2 sends; a fatal error in `process` exits the process at
once (no further events); otherwise after the last descriptor `main`
closes channel 1, `process` drains it and closes channel 2, the sink
drains channel 2 and returns, and `wg.Wait()` in `main` returns. -/
def pipelineTrace (alg : Algorithms) (opts : Options) : List String → List Ev
  | [] => [Ev.close1, Ev.close2, Ev.sinkDone, Ev.wgDone]
  | c :: rest =>
    match processStep alg opts c with
    | .error _ => [Ev.send1 c, Ev.fatal]
    | .ok outs => Ev.send1 c :: outs.map Ev.send2 ++ pipelineTrace alg opts rest

/-- Whether `process` gets through one descriptor without a fatal exit. -/
def stepOk (alg : Algorithms) (opts : Options) (c : String) : Bool :=
  match processStep alg opts c with
  | .ok _ => true
  | .error _ => false

/-- Claim C4 as stated: an empty input line is skipped by the downstream
stages — deleting it from the descriptor sequence never changes what the
Transform Stage produces. -/
def emptyLinesSkipped : Prop :=
  ∀ (alg : Algorithms) (opts : Options) (pre suf : List String),
    processList alg opts (pre ++ "" :: suf) = processList alg opts (pre ++ suf)

/-- Claim C2: for every descriptor the Transform Stage selects exactly one
transformation by priority: positive `Slices` invokes equal-split
(`SplitN`) with that count; otherwise positive `HostCount` invokes
host-capacity-split (`SplitByNumber`) with that count; otherwise full
enumeration (`IPAddresses`). -/
theorem transform_dispatch_priority (alg : Algorithms) (opts : Options)
    (cidr : String) (p : Nat × Nat) (hp : parseCIDR cidr = .ok p) :
    (opts.Slices > 0 → processStep alg opts cidr = alg.SplitN cidr opts.Slices) ∧
    (¬ opts.Slices > 0 → opts.HostCount > 0 →
      processStep alg opts cidr = alg.SplitByNumber cidr opts.HostCount) ∧
    (¬ opts.Slices > 0 → ¬ opts.HostCount > 0 →
      processStep alg opts cidr = alg.IPAddresses cidr) := by
  refine ⟨fun hs => ?_, fun hs hh => ?_, fun hs hh => ?_⟩ <;>
    simp [processStep, hp, hs, if_pos, if_neg] <;> simp [hh]

/-- Witness for C2: the dispatch theorem evaluated at a concrete parseable
CIDR and a concrete configuration requesting 4 equal slices. -/
theorem transform_dispatch_priority_witness :
    processStep algEnum { opts0 with Slices := 4 } "10.0.0.0/24" =
      algEnum.SplitN "10.0.0.0/24" 4 :=
  (transform_dispatch_priority algEnum { opts0 with Slices := 4 }
    "10.0.0.0/24" (167772160, 24) (by decide)).1 (by decide)

/-- A descriptor that passes `stepOk` produces exactly its `okOuts`. -/
theorem stepOk_eq_ok (alg : Algorithms) (opts : Options) (c : String)
    (h : stepOk alg opts c = true) :
    processStep alg opts c = .ok (okOuts alg opts c) := by
  unfold stepOk at h
  unfold okOuts
  cases hs : processStep alg opts c <;> simp [hs] at h ⊢

/-- Claim C1: a CIDR parse failure or an error from any transformation
call is fatal: `process` exits the process with a non-zero status at that
descriptor (the `some` error component), and no descriptor after the
failing one is ever examined or contributes output — the result does not
depend on the suffix at all, only the successful prefix contributes
records. -/
theorem transform_error_failfast (alg : Algorithms) (opts : Options)
    (pre : List String) (bad : String) (suf : List String) (e : String)
    (hpre : ∀ c ∈ pre, stepOk alg opts c = true)
    (hbad : processStep alg opts bad = .error e) :
    processList alg opts (pre ++ bad :: suf) =
      ((pre.map (okOuts alg opts)).flatten, some e) ∧
    (∀ c err, parseCIDR c = .error err → processStep alg opts c = .error err) := by
  constructor
  · induction pre with
    | nil => simp [processList, hbad]
    | cons c cs ih =>
      have hc := stepOk_eq_ok alg opts c (hpre c (List.mem_cons_self c cs))
      have ih2 := ih (fun x hx => hpre x (List.mem_cons_of_mem c hx))
      simp only [List.cons_append, processList, hc, List.append_eq, ih2,
        List.map_cons, List.flatten_cons]
  · intro c err hp
    simp [processStep, hp]

/-- Witness for C1: with the concrete algorithm provider, a valid
descriptor followed by the malformed `not-a-cidr` and one more valid
descriptor yields only the record of the first descriptor and the fatal parse
error; the trailing descriptor is never processed. -/
theorem transform_error_failfast_witness :
    processList algEnum opts0 (["10.0.0.0/30"] ++ "not-a-cidr" :: ["192.168.0.0/24"]) =
      (((["10.0.0.0/30"].map (okOuts algEnum opts0)).flatten),
        some ("invalid CIDR address: " ++ "not-a-cidr")) ∧
    (∀ c err, parseCIDR c = .error err →
      processStep algEnum opts0 c = .error err) :=
  transform_error_failfast algEnum opts0 ["10.0.0.0/30"] "not-a-cidr"
    ["192.168.0.0/24"] ("invalid CIDR address: " ++ "not-a-cidr")
    (by decide) (by decide)

/-- Counterexample for C4: the claim that downstream stages skip empty
input lines is false — on the single empty line, `process` feeds the
empty string to the CIDR parse, which fails and fatally terminates,
unlike the empty input sequence, which succeeds. -/
theorem empty_line_not_skipped : ¬ emptyLinesSkipped := fun h =>
  absurd (h algEnum opts0 [] []) (by decide)

/-- Claim C4 amended: an empty string reaching the Output Sink as a
result record is skipped and never printed or written; but an empty input
line IS treated as a descriptor by the Transform Stage: its CIDR parse
fails, so it fatally terminates the whole pipeline (and only therefore
produces no output record). -/
theorem empty_line_amended :
    (∀ (hasFile : Bool) (wOk : Nat → Bool) (rs : List String) (i : Nat),
      sinkLoop hasFile wOk ("" :: rs) i = sinkLoop hasFile wOk rs i) ∧
    (∀ (alg : Algorithms) (opts : Options) (suf : List String),
      processList alg opts ("" :: suf) = ([], some "invalid CIDR address: ")) := by
  constructor
  · intro hasFile wOk rs i
    simp [sinkLoop]
  · intro alg opts suf
    have hp : parseCIDR "" = .error "invalid CIDR address: " := by decide
    simp [processList, processStep, hp]

/-- The Output Sink prints exactly the non-empty records, in order,
whatever the file configuration and write outcomes are. -/
theorem sinkLoop_printed (hasFile : Bool) (wOk : Nat → Bool)
    (rs : List String) (i : Nat) :
    (sinkLoop hasFile wOk rs i).1 = rs.filter (fun o => o ≠ "") := by
  induction rs generalizing i with
  | nil => simp [sinkLoop]
  | cons o rest ih =>
    by_cases ho : o = "" <;> cases hasFile <;>
      simp [sinkLoop, ho, ih]

/-- Claim C5: end-to-end order is fully preserved. When every descriptor
succeeds, the Transform Stage emits exactly the concatenation, in input
order, of the per-descriptor result lists, each in the order the transformation
returned it (and no fatal error occurs); and the Output Sink prints those
records in the same order, only dropping empty ones. -/
theorem pipeline_order_preserved (alg : Algorithms) (opts : Options)
    (ds : List String) (wOk : Nat → Bool)
    (h : ∀ c ∈ ds, stepOk alg opts c = true) :
    processList alg opts ds = ((ds.map (okOuts alg opts)).flatten, none) ∧
    (sinkLoop false wOk ((ds.map (okOuts alg opts)).flatten) 0).1 =
      ((ds.map (okOuts alg opts)).flatten).filter (fun o => o ≠ "") := by
  refine ⟨?_, sinkLoop_printed false wOk _ 0⟩
  induction ds with
  | nil => simp [processList]
  | cons c cs ih =>
    have hc := stepOk_eq_ok alg opts c (h c (List.mem_cons_self c cs))
    have ih2 := ih (fun x hx => h x (List.mem_cons_of_mem c hx))
    simp only [processList, hc, List.append_eq, ih2, List.map_cons,
      List.flatten_cons]

/-- Witness for C5: two valid descriptors in default (full-enumeration)
mode produce their records in input order with no fatal error, and the
sink prints them unchanged. -/
theorem pipeline_order_preserved_witness :
    processList algEnum opts0 ["10.0.0.0/30", "192.168.0.0/24"] =
      (((["10.0.0.0/30", "192.168.0.0/24"].map (okOuts algEnum opts0)).flatten), none) ∧
    (sinkLoop false (fun _ => true)
        ((["10.0.0.0/30", "192.168.0.0/24"].map (okOuts algEnum opts0)).flatten) 0).1 =
      ((["10.0.0.0/30", "192.168.0.0/24"].map (okOuts algEnum opts0)).flatten).filter
        (fun o => o ≠ "") :=
  pipeline_order_preserved algEnum opts0 ["10.0.0.0/30", "192.168.0.0/24"]
    (fun _ => true) (by decide)

/-- Claim C3: the Input Aggregator emits descriptors in the fixed
priority order — the single `-cidr` string when present (one record),
then every stdin line (exactly when stdin is a pipe), then every line of
the `-l` file (here read successfully), each source fully drained before
the next begins; the right-hand side spells out that spec-side order. -/
theorem aggregator_source_order (opts : Options) (stat : Except Unit Nat)
    (stdinLines fileLines : List String) :
    sentDescriptors (mainChan1Trace opts stat stdinLines (some fileLines)) =
      (if opts.Cidr ≠ "" then [opts.Cidr] else []) ++
      (if hasStdin stat then stdinLines else []) ++
      (if opts.FileCidr ≠ "" then fileLines else []) := by
  unfold mainChan1Trace sentDescriptors
  by_cases hc : opts.Cidr ≠ "" <;> by_cases hs : hasStdin stat <;>
    by_cases hf : opts.FileCidr ≠ "" <;>
      simp [hc, hs, hf, List.filterMap_append, List.filterMap_map,
        Function.comp_def]

/-- Every event of a successful per-descriptor trace is a send. -/
theorem descTrace_only_sends (alg : Algorithms) (opts : Options) (c : String)
    (e : Ev) (he : e ∈ descTrace alg opts c) :
    (∃ s, e = Ev.send1 s) ∨ ∃ s, e = Ev.send2 s := by
  simp only [descTrace, List.mem_cons, List.mem_map] at he
  rcases he with rfl | ⟨s, _, rfl⟩
  · exact Or.inl ⟨c, rfl⟩
  · exact Or.inr ⟨s, rfl⟩

/-- Lifecycle events never occur among the per-descriptor sends. -/
theorem flatten_descTrace_no_lifecycle (alg : Algorithms) (opts : Options)
    (ds : List String) (e : Ev)
    (he : e = Ev.close1 ∨ e = Ev.close2 ∨ e = Ev.sinkDone ∨ e = Ev.wgDone) :
    e ∉ (ds.map (descTrace alg opts)).flatten := by
  intro hmem
  rcases List.mem_flatten.mp hmem with ⟨t, ht, het⟩
  rcases List.mem_map.mp ht with ⟨c, _, rfl⟩
  rcases descTrace_only_sends alg opts c e het with ⟨s, rfl⟩ | ⟨s, rfl⟩ <;>
    rcases he with he | he | he | he <;> exact Ev.noConfusion he

/-- Claim C6: the completion cascade. When no descriptor is fatal, the
observable trace is all the per-descriptor sends followed by exactly the
four lifecycle events in cascade order: the single close of channel 1,
then the single close of channel 2, then the sink returning, then the
`wg.Wait` join in `main` returning last; each close happens exactly once
in the whole trace. -/
theorem completion_cascade (alg : Algorithms) (opts : Options)
    (ds : List String) (h : ∀ c ∈ ds, stepOk alg opts c = true) :
    pipelineTrace alg opts ds =
      (ds.map (descTrace alg opts)).flatten ++
        [Ev.close1, Ev.close2, Ev.sinkDone, Ev.wgDone] ∧
    (pipelineTrace alg opts ds).count Ev.close1 = 1 ∧
    (pipelineTrace alg opts ds).count Ev.close2 = 1 ∧
    (pipelineTrace alg opts ds).count Ev.sinkDone = 1 ∧
    (pipelineTrace alg opts ds).count Ev.wgDone = 1 := by
  have hEq : pipelineTrace alg opts ds =
      (ds.map (descTrace alg opts)).flatten ++
        [Ev.close1, Ev.close2, Ev.sinkDone, Ev.wgDone] := by
    induction ds with
    | nil => simp [pipelineTrace]
    | cons c cs ih =>
      have hc := stepOk_eq_ok alg opts c (h c (List.mem_cons_self c cs))
      have ih2 := ih (fun x hx => h x (List.mem_cons_of_mem c hx))
      simp only [pipelineTrace, hc, ih2, List.map_cons, List.flatten_cons,
        descTrace, List.cons_append, List.append_assoc]
  refine ⟨hEq, ?_, ?_, ?_, ?_⟩ <;> rw [hEq, List.count_append] <;>
  · rw [List.count_eq_zero.mpr
      (flatten_descTrace_no_lifecycle alg opts ds _ (by simp))]
    decide

/-- Witness for C6: the cascade evaluated on one valid descriptor. -/
theorem completion_cascade_witness :
    pipelineTrace algEnum opts0 ["10.0.0.0/30"] =
      ((["10.0.0.0/30"].map (descTrace algEnum opts0)).flatten ++
        [Ev.close1, Ev.close2, Ev.sinkDone, Ev.wgDone]) ∧
    (pipelineTrace algEnum opts0 ["10.0.0.0/30"]).count Ev.close1 = 1 ∧
    (pipelineTrace algEnum opts0 ["10.0.0.0/30"]).count Ev.close2 = 1 ∧
    (pipelineTrace algEnum opts0 ["10.0.0.0/30"]).count Ev.sinkDone = 1 ∧
    (pipelineTrace algEnum opts0 ["10.0.0.0/30"]).count Ev.wgDone = 1 :=
  completion_cascade algEnum opts0 ["10.0.0.0/30"] (by decide)

/-- Counterexample for C7: the claim that the two channels are unbounded
(a fast producer can queue arbitrarily many pending items without its
send blocking on channel capacity) is false: both channels are created by
`make(chan string)` with capacity 0, so already the very first send with
no receiver ready blocks. -/
theorem channels_not_unbounded : ¬ sendsNeverBlockOnCapacity := fun h =>
  absurd (h 0).1 (by decide)

/-- Claim C7 amended: both pipeline channels are unbuffered — created
with capacity 0 — so a send always blocks until the consumer is ready to
receive; no pending item can ever be queued ahead of the consumer. -/
theorem channels_unbuffered :
    chancidrCap = 0 ∧ outputchanCap = 0 ∧
    ∀ pending : Nat,
      sendBlocks chancidrCap pending = true ∧
      sendBlocks outputchanCap pending = true := by
  refine ⟨rfl, rfl, fun p => ⟨?_, ?_⟩⟩ <;>
    simp [sendBlocks, chancidrCap, outputchanCap, mkChan]

/-- Claim C8: `hasStdin` is true exactly when the Stat call succeeds and
the returned mode has the named-pipe bit set; a failed Stat, a terminal
(character-device mode), or a redirected regular file all yield false,
and a false `hasStdin` makes the Aggregator ignore stdin entirely — its
trace does not depend on the stdin lines. -/
theorem hasStdin_characterization :
    (∀ st, hasStdin st = true ↔ ∃ m, st = .ok m ∧ m &&& ModeNamedPipe ≠ 0) ∧
    hasStdin (.error ()) = false ∧
    hasStdin (.ok (ModeCharDeviceBits + 0o620)) = false ∧
    hasStdin (.ok 0o644) = false ∧
    (∀ (opts : Options) (st : Except Unit Nat) (sl : List String)
      (fc : Option (List String)), hasStdin st = false →
      mainChan1Trace opts st sl fc = mainChan1Trace opts st [] fc) := by
  refine ⟨fun st => ?_, by decide, by decide, by decide,
    fun opts st sl fc hst => ?_⟩
  · cases st with
    | error u => simp [hasStdin]
    | ok m =>
      constructor
      · intro h
        refine ⟨m, rfl, ?_⟩
        by_cases hz : m &&& ModeNamedPipe = 0
        · simp [hasStdin, hz] at h
        · exact hz
      · rintro ⟨m', hm', hz⟩
        cases hm'
        simp [hasStdin, hz]
  · simp [mainChan1Trace, hst]

/-- Witness for C8: a mode consisting of exactly the named-pipe bit makes
`hasStdin` true, and with a failed Stat the Aggregator trace ignores a
non-empty stdin line list. -/
theorem hasStdin_characterization_witness :
    hasStdin (.ok ModeNamedPipe) = true ∧
    mainChan1Trace opts0 (.error ()) ["10.0.0.0/24"] none =
      mainChan1Trace opts0 (.error ()) [] none :=
  ⟨(hasStdin_characterization.1 (.ok ModeNamedPipe)).mpr
      ⟨ModeNamedPipe, rfl, by decide⟩,
    hasStdin_characterization.2.2.2.2 opts0 (.error ()) ["10.0.0.0/24"] none
      (by decide)⟩

/-- Every file operation the sink loop performs is a write attempt (the
single create comes only from the pre-loop `os.Create`). -/
theorem sinkLoop_ops_all_writes (hasFile : Bool) (wOk : Nat → Bool)
    (rs : List String) (i : Nat) (op : FOp)
    (hop : op ∈ (sinkLoop hasFile wOk rs i).2) : FOp.isWrite op = true := by
  induction rs generalizing i with
  | nil => simp [sinkLoop] at hop
  | cons o rest ih =>
    by_cases ho : o = "" <;> cases hasFile <;>
      simp only [sinkLoop, ho, if_pos, if_neg, if_true, if_false,
        reduceIte, List.mem_cons] at hop
    · exact ih i hop
    · exact ih i hop
    · exact ih i hop
    · rcases hop with rfl | hop
      · rfl
      · exact ih (i + 1) hop

/-- With a file configured, the sink attempts exactly one write per
non-empty record, whatever the outcomes of earlier writes were. -/
theorem sinkLoop_write_attempts (wOk : Nat → Bool) (rs : List String)
    (i : Nat) :
    ((sinkLoop true wOk rs i).2.filter FOp.isWrite).length =
      (rs.filter (fun o => o ≠ "")).length := by
  induction rs generalizing i with
  | nil => simp [sinkLoop]
  | cons o rest ih =>
    by_cases ho : o = "" <;>
      simp [sinkLoop, ho, FOp.isWrite, ih]

/-- Claim C9: a failed `WriteString` to the `-o` file is silently
ignored: with the file configured and created, the sink returns normally
(never a fatal error), prints every non-empty record to the primary
stream in order — an outcome that does not depend on the write-success
oracle `wOk` at all — and still attempts one file write per non-empty
record, so it keeps consuming after any failure. -/
theorem sink_write_error_ignored (opts : Options) (wOk : Nat → Bool)
    (rs : List String) (hf : opts.Output ≠ "") :
    outputStage opts true wOk rs =
      .ok (rs.filter (fun o => o ≠ ""),
        FOp.create :: (sinkLoop true wOk rs 0).2) ∧
    ((sinkLoop true wOk rs 0).2.filter FOp.isWrite).length =
      (rs.filter (fun o => o ≠ "")).length := by
  refine ⟨?_, sinkLoop_write_attempts wOk rs 0⟩
  rw [outputStage, if_pos hf, if_pos rfl, ← sinkLoop_printed true wOk rs 0]

/-- Witness for C9: three records with the very first file write failing;
the printed stream still carries both non-empty records and both writes
were attempted. -/
theorem sink_write_error_ignored_witness :
    outputStage { opts0 with Output := "out.txt" } true (fun i => i != 0)
        ["10.0.0.1", "", "10.0.0.2"] =
      .ok (["10.0.0.1", "", "10.0.0.2"].filter (fun o => o ≠ ""),
        FOp.create ::
          (sinkLoop true (fun i => i != 0) ["10.0.0.1", "", "10.0.0.2"] 0).2) ∧
    ((sinkLoop true (fun i => i != 0) ["10.0.0.1", "", "10.0.0.2"] 0).2.filter
        FOp.isWrite).length =
      (["10.0.0.1", "", "10.0.0.2"].filter (fun o => o ≠ "")).length :=
  sink_write_error_ignored { opts0 with Output := "out.txt" }
    (fun i => i != 0) ["10.0.0.1", "", "10.0.0.2"] (by decide)

/-- Claim C10: with an output path configured, the sink issues the single
truncating `os.Create` before any write — its operation sequence is the
create followed by only write attempts, the create occurring exactly once
— so the file contents after the run are the same whatever contents the
file held before. -/
theorem sink_truncating_create (opts : Options) (wOk : Nat → Bool)
    (rs prior : List String) (hf : opts.Output ≠ "") :
    outputStage opts true wOk rs =
      .ok ((sinkLoop true wOk rs 0).1,
        FOp.create :: (sinkLoop true wOk rs 0).2) ∧
    (FOp.create :: (sinkLoop true wOk rs 0).2).count FOp.create = 1 ∧
    applyFOps prior (FOp.create :: (sinkLoop true wOk rs 0).2) =
      applyFOps [] (FOp.create :: (sinkLoop true wOk rs 0).2) := by
  refine ⟨by rw [outputStage, if_pos hf, if_pos rfl], ?_, rfl⟩
  rw [List.count_cons_self, List.count_eq_zero.mpr, Nat.zero_add]
  intro hmem
  exact absurd (sinkLoop_ops_all_writes true wOk rs 0 FOp.create hmem)
    (by decide)

/-- Witness for C10: with a configured output file and one record, the
sink creates before writing, creates exactly once, and a non-trivial
prior file content is discarded. -/
theorem sink_truncating_create_witness :
    outputStage { opts0 with Output := "out.txt" } true (fun _ => true)
        ["10.0.0.1"] =
      .ok ((sinkLoop true (fun _ => true) ["10.0.0.1"] 0).1,
        FOp.create :: (sinkLoop true (fun _ => true) ["10.0.0.1"] 0).2) ∧
    (FOp.create :: (sinkLoop true (fun _ => true) ["10.0.0.1"] 0).2).count
        FOp.create = 1 ∧
    applyFOps ["stale-line"]
        (FOp.create :: (sinkLoop true (fun _ => true) ["10.0.0.1"] 0).2) =
      applyFOps []
        (FOp.create :: (sinkLoop true (fun _ => true) ["10.0.0.1"] 0).2) :=
  sink_truncating_create { opts0 with Output := "out.txt" } (fun _ => true)
    ["10.0.0.1"] ["stale-line"] (by decide)
